import Mathlib

/-!
Shallow embedding of the call-instrumentation wrapper of this repository:
the `withProgressIndicator` middleware in `src/model-logging.ts` (namespace
`ML` below) and in `src/model-progress.ts` (namespace `MP` below), together
with the helper functions they share verbatim (prompt previewing, result
previewing, whitespace normalization).

Modelling conventions:
  - JavaScript strings are Lean `String`s; `slice`/`substring` become
    `String.take`, `length` is `String.length`.
  - JavaScript runtime values reaching `JSON.stringify` / truthiness tests
    are modelled by the inductive `JsonVal`; an absent object key is
    `Option.none`.
  - `Map` and `Set` (whose iteration order is insertion order) are modelled
    by association lists and duplicate-free lists with order-preserving
    update operations.
  - `process.stdout.write` calls become elements of a `List String` of
    emitted log lines; `controller.enqueue` calls become elements of a
    `List Chunk` of forwarded chunks.
  - Wall-clock sampling (`Date.now()`) is modelled by explicit `startTime`
    and `now` parameters in integer milliseconds, and the float
    `toFixed(2)` duration by half-up rounding to centiseconds.
  - The shared mutable counters `callCounter`/`activeCalls` are threaded
    explicitly; `activeCalls` is an `Int` because nothing in the code
    prevents it from going negative.
-/

namespace Spec2Proof

/-- Preview character budget, `PREVIEW_LIMIT` in both source files. -/
def PREVIEW_LIMIT : Nat := 40

/-- Tool-result preview budget, `TOOL_RESULT_PREVIEW_LIMIT` in model-logging.ts. -/
def TOOL_RESULT_PREVIEW_LIMIT : Nat := 100

/-- Whitespace class of the JavaScript regexp `\s` (restricted to the
characters that occur in practice: space, tab, line feed, carriage return,
vertical tab, form feed). -/
def isJsWs (c : Char) : Bool :=
  c == ' ' || c == '\t' || c == '\n' || c == '\r' || c.toNat == 11 || c.toNat == 12

/-- JavaScript `String.prototype.trim`: strip leading and trailing whitespace. -/
def jsTrim (s : String) : String :=
  ⟨((s.data.dropWhile isJsWs).reverse.dropWhile isJsWs).reverse⟩

/-- Worker for `collapseWs`; the flag records whether the previous character
was whitespace (so that a run contributes a single space). -/
def collapseGo : Bool → List Char → List Char
  | _, [] => []
  | prevWs, c :: rest =>
    if isJsWs c then
      if prevWs then collapseGo true rest else ' ' :: collapseGo true rest
    else
      c :: collapseGo false rest

/-- JavaScript `.replace(/\s+/g, ' ')`: collapse every whitespace run to a
single space. -/
def collapseWs (s : String) : String :=
  ⟨collapseGo false s.data⟩

/-- The normalization `text.trim().replace(/\s+/g, ' ')` used on result and
reasoning previews (model-logging.ts line 86, model-progress.ts line 26). -/
def normTrimCollapse (s : String) : String :=
  collapseWs (jsTrim s)

/-- The normalization `text.replace(/\s+/g, ' ').trim()` used inside
`appendText` of `getPromptPreview` (model-logging.ts line 123). -/
def normCollapseTrim (s : String) : String :=
  jsTrim (collapseWs s)

/-- JavaScript `.replace(/"/g, '\\"')`: escape every double quote. -/
def escapeQuotes (s : String) : String :=
  ⟨s.data.foldr (fun c acc => if c == '"' then '\\' :: '"' :: acc else c :: acc) []⟩

/-- JSON-like runtime values, used for tool arguments, tool results and
error payloads. An absent key is represented by `Option.none` at the use
site, so `JsonVal` itself has no `undefined` constructor. -/
inductive JsonVal where
  | jnull
  | jbool (b : Bool)
  | jnum (n : Int)
  | jstr (s : String)
  | jarr (xs : List JsonVal)
  | jobj (fields : List (String × JsonVal))

/-- JavaScript truthiness test `!v` on a present value: `null`, `false`,
`0` and the empty string are falsy. -/
def jsFalsy : JsonVal → Bool
  | .jnull => true
  | .jbool b => !b
  | .jnum n => n == 0
  | .jstr s => s == ""
  | .jarr _ => false
  | .jobj _ => false

/-- JSON string escaping for `JSON.stringify` (quote, backslash and the
common control characters). -/
def jsonEscapeChar (c : Char) : List Char :=
  if c == '"' then ['\\', '"']
  else if c == '\\' then ['\\', '\\']
  else if c == '\n' then ['\\', 'n']
  else if c == '\t' then ['\\', 't']
  else if c == '\r' then ['\\', 'r']
  else [c]

/-- JSON string escaping lifted to strings. -/
def jsonEscape (s : String) : String :=
  ⟨s.data.foldr (fun c acc => jsonEscapeChar c ++ acc) []⟩

mutual

/-- `JSON.stringify` on the modelled values (deterministic, no spacing).
On the values representable by `JsonVal` the real `JSON.stringify` cannot
throw, so the `catch` arms guarding it in the source are dead in this model. -/
def jsonStringify : JsonVal → String
  | .jnull => "null"
  | .jbool true => "true"
  | .jbool false => "false"
  | .jnum n => toString n
  | .jstr s => "\"" ++ jsonEscape s ++ "\""
  | .jarr xs => "[" ++ jsonStringifyArr xs ++ "]"
  | .jobj fs => "\x7b" ++ jsonStringifyObj fs ++ "\x7d"

/-- Comma-joined `JSON.stringify` of array elements. -/
def jsonStringifyArr : List JsonVal → String
  | [] => ""
  | [x] => jsonStringify x
  | x :: y :: rest => jsonStringify x ++ "," ++ jsonStringifyArr (y :: rest)

/-- Comma-joined `JSON.stringify` of object fields. -/
def jsonStringifyObj : List (String × JsonVal) → String
  | [] => ""
  | [kv] => "\"" ++ jsonEscape kv.1 ++ "\":" ++ jsonStringify kv.2
  | kv :: kv2 :: rest =>
    "\"" ++ jsonEscape kv.1 ++ "\":" ++ jsonStringify kv.2 ++ "," ++
      jsonStringifyObj (kv2 :: rest)

end

mutual

/-- JavaScript `String(v)` conversion (used on `error` chunk payloads). -/
def jsToString : JsonVal → String
  | .jnull => "null"
  | .jbool true => "true"
  | .jbool false => "false"
  | .jnum n => toString n
  | .jstr s => s
  | .jobj _ => "[object Object]"
  | .jarr xs => jsToStringArr xs

/-- JavaScript array `toString`: elements joined by commas, `null` rendered
as the empty string. -/
def jsToStringArr : List JsonVal → String
  | [] => ""
  | [x] => jsToStringElem x
  | x :: y :: rest => jsToStringElem x ++ "," ++ jsToStringArr (y :: rest)

/-- One array element of the JavaScript array `toString`. -/
def jsToStringElem : JsonVal → String
  | .jnull => ""
  | v => jsToString v

end

/-- Association-list model of a JavaScript `Map`: lookup (first match). -/
def mapGet (m : List (String × String)) (k : String) : Option String :=
  (m.find? (fun p => p.1 == k)).map Prod.snd

/-- Association-list model of `Map.set`: overwrite in place when the key is
present (preserving its insertion position), append otherwise. -/
def mapSet (m : List (String × String)) (k v : String) : List (String × String) :=
  if m.any (fun p => p.1 == k) then
    m.map (fun p => if p.1 == k then (k, v) else p)
  else
    m ++ [(k, v)]

/-- Association-list model of `Map.delete`. -/
def mapDelete (m : List (String × String)) (k : String) : List (String × String) :=
  m.filter (fun p => p.1 != k)

/-- List model of `Set.add`: insertion-ordered, no duplicates. -/
def setAdd (l : List String) (a : String) : List String :=
  if a ∈ l then l else l ++ [a]

/-- Token-usage record (`LanguageModelV2Usage`): each count may be absent. -/
structure Usage where
  inputTokens : Option Nat
  outputTokens : Option Nat
  totalTokens : Option Nat

/-- One streaming event (`LanguageModelV2StreamPart`), restricted to the
chunk types the wrappers inspect; every other chunk type is covered by the
default branch of the source and is modelled by the payload-free
constructors being absent (the wrappers treat unknown chunks exactly like
chunks with no matching branch, which none of the claims exercise).
A tool-call chunk carries its `args`/`input` keys as options (`none` = key
absent); `toolCallId` is a plain string and the source tests it for
truthiness, so the empty string behaves as a missing id. -/
inductive Chunk where
  | textDelta (delta : String)
  | reasoningStart
  | reasoningDelta (delta : String)
  | reasoningEnd
  | toolCall (toolCallId : String) (toolName : String)
      (args : Option JsonVal) (input : Option JsonVal)
  | toolInputStart (id : String) (toolName : String)
  | toolInputDelta (id : String) (delta : String)
  | toolInputEnd (id : String)
  | toolResult (toolCallId : String) (result : JsonVal)
  | error (e : JsonVal)
  | finish (finishReason : String) (usage : Option Usage)

/-- One part of a non-streaming result's `content` array; `other` stands
for the part types both `wrapGenerate` bodies ignore. -/
inductive ContentPart where
  | text (t : String)
  | toolCall (toolCallId : String) (toolName : String)
      (args : Option JsonVal) (input : Option JsonVal)
  | toolResult (toolCallId : String) (result : JsonVal)
  | other

/-- Result of a successful `doGenerate()` call. -/
structure GenResult where
  content : List ContentPart
  usage : Option Usage

/-- One part of a prompt message's content array: a text part or any
non-text part (file, tool call, tool result, ...), which the previewer
ignores. -/
inductive PromptPart where
  | text (t : String)
  | other

/-- One prompt message. A `system` message's content is a plain string;
other roles carry an array of parts; `nonArrayContent` is the defensive
case of a message whose `content` is not an array (skipped by the source). -/
inductive PromptMessage where
  | system (content : String)
  | parts (content : List PromptPart)
  | nonArrayContent

/-- The derived prompt preview (`PromptPreview` interface in the source). -/
structure PromptPreview where
  text : String
  truncated : Bool

/-- Mutable state of the `getPromptPreview` loop (`preview`/`truncated`). -/
structure PvSt where
  preview : String
  truncated : Bool

/-- The `appendText` closure of `getPromptPreview` (identical in
model-logging.ts lines 117-139 and model-progress.ts lines 57-79). -/
def appendText (st : PvSt) (text : String) : PvSt :=
  if st.preview.length ≥ PREVIEW_LIMIT then
    { st with truncated := true }
  else
    let sanitized := normCollapseTrim text
    if sanitized == "" then st
    else
      let segment := if st.preview.length > 0 then " " ++ sanitized else sanitized
      if segment == "" then st
      else
        let remaining := PREVIEW_LIMIT - st.preview.length
        let tr := if segment.length > remaining then true else st.truncated
        { preview := st.preview ++ segment.take remaining, truncated := tr }

/-- Inner loop of `getPromptPreview` over the parts of one message,
including its two break checks (before and after a text part is appended). -/
def previewParts : PvSt → List PromptPart → PvSt
  | st, [] => st
  | st, p :: rest =>
    if st.preview.length ≥ PREVIEW_LIMIT then { st with truncated := true }
    else
      let st1 := match p with
        | .text t => appendText st t
        | .other => st
      if st1.preview.length ≥ PREVIEW_LIMIT then { st1 with truncated := true }
      else previewParts st1 rest

/-- Outer loop of `getPromptPreview` over the messages, with its top-of-loop
break check. -/
def previewMsgs : PvSt → List PromptMessage → PvSt
  | st, [] => st
  | st, m :: rest =>
    if st.preview.length ≥ PREVIEW_LIMIT then { st with truncated := true }
    else
      match m with
      | .system c => previewMsgs (appendText st c) rest
      | .parts ps => previewMsgs (previewParts st ps) rest
      | .nonArrayContent => previewMsgs st rest

/-- The Prompt Previewer `getPromptPreview` (identical in model-logging.ts
lines 104-181 and model-progress.ts lines 44-121). The input is `none` when
`params` is undefined or `params.prompt` is not an array. -/
def getPromptPreview (params : Option (List PromptMessage)) : Option PromptPreview :=
  match params with
  | none => none
  | some prompt =>
    let st := previewMsgs ⟨"", false⟩ prompt
    if st.preview == "" then none
    else some ⟨st.preview, st.truncated⟩

/-- The `formatPromptSuffix` helper (identical in both source files):
absent preview yields the empty suffix, otherwise a quoted, escaped excerpt
with an ellipsis marker when the preview was truncated. -/
def formatPromptSuffix (preview : Option PromptPreview) : String :=
  match preview with
  | none => ""
  | some pv =>
    let escaped := escapeQuotes pv.text
    let display := if pv.truncated then escaped ++ "..." else escaped
    " | prompt: \"" ++ display ++ "\""

/-- The preview value computed inside the `resultSuffix` block of both
`logCompletion` variants: normalize, then cut to the 40-character budget
with an ellipsis marker. -/
def resultPreviewStr (text : String) : String :=
  let preview := normTrimCollapse text
  if preview.length > PREVIEW_LIMIT then preview.take PREVIEW_LIMIT ++ "..." else preview

/-- The `resultSuffix` value of both `logCompletion` variants: empty for an
absent or empty text (JavaScript truthiness), otherwise the quoted and
quote-escaped bounded preview. -/
def resultSuffixStr (text : Option String) : String :=
  match text with
  | none => ""
  | some t =>
    if t == "" then ""
    else " | result: \"" ++ escapeQuotes (resultPreviewStr t) ++ "\""

/-- Two-digit rendering of a number below 100. -/
def twoDigits (n : Nat) : String :=
  if n < 10 then "0" ++ toString n else toString n

/-- The duration string `((Date.now() - startTime) / 1000).toFixed(2)`,
modelled over integer milliseconds with half-up rounding to centiseconds. -/
def durationStr (startTime now : Nat) : String :=
  let centis := (now - startTime + 5) / 10
  toString (centis / 100) ++ "." ++ twoDigits (centis % 100)

/-- The call mode literal passed to `logCompletion`. -/
inductive CallMode where
  | generating
  | streaming

/-- Rendering of the mode literal. -/
def CallMode.str : CallMode → String
  | .generating => "generating"
  | .streaming => "streaming"

/-- The `getToolArguments` helper of model-logging.ts lines 31-47 (and the
identical inline blocks of model-progress variants): prefer the `args` key
when present, else the `input` key; an absent or falsy selection yields the
empty string; a string value is used directly, any other value is
stringified. The `catch` arm is dead in this model because the modelled
`JSON.stringify` is total. -/
def getToolArguments (args input : Option JsonVal) : String :=
  let sel := match args with
    | some a => some a
    | none => input
  match sel with
  | none => ""
  | some v =>
    if jsFalsy v then ""
    else match v with
      | .jstr s => s
      | _ => jsonStringify v

/-- The `formatToolResult` helper of model-logging.ts lines 50-61: use a
string result directly, stringify anything else, and cut to the
100-character budget with an ellipsis marker. -/
def formatToolResult (result : JsonVal) : String :=
  let resultStr := match result with
    | .jstr s => s
    | _ => jsonStringify result
  if resultStr.length > TOOL_RESULT_PREVIEW_LIMIT then
    resultStr.take TOOL_RESULT_PREVIEW_LIMIT ++ "..."
  else resultStr

/-- The shared log-line head `[modelName #callId] `. -/
def linePfx (modelName : String) (callId : Nat) : String :=
  "[" ++ modelName ++ " #" ++ toString callId ++ "] "

/-- The start-of-call line written by both `wrapGenerate`/`wrapStream`
variants (`Start generating` or `Start streaming`). -/
def startLine (modelName : String) (callId : Nat) (verb : String)
    (promptSfx : String) (active : Int) : String :=
  linePfx modelName callId ++ "🚩 Start " ++ verb ++ promptSfx ++
    " | active: " ++ toString active

namespace ML

/-- The `tokenInfo` value of model-logging.ts `logCompletion` (lines 77-82):
input and output token counts each default to zero when absent; the input
count is shown only when positive. -/
def tokenInfo (usage : Option Usage) : String :=
  let inputTokens := (Option.bind usage Usage.inputTokens).getD 0
  let outputTokens := (Option.bind usage Usage.outputTokens).getD 0
  if inputTokens > 0 then
    toString inputTokens ++ "→" ++ toString outputTokens ++ " tokens"
  else
    toString outputTokens ++ " tokens"

/-- The `finishInfo` value of model-logging.ts `logCompletion` (line 92);
JavaScript truthiness makes an empty reason behave like an absent one. -/
def finishInfo (finishReason : Option String) : String :=
  match finishReason with
  | none => ""
  | some r => if r == "" then "" else " | reason: " ++ r

/-- The completion line written by model-logging.ts `logCompletion`
(lines 64-97). -/
def logCompletion (modelName : String) (callId : Nat) (startTime now : Nat)
    (usage : Option Usage) (mode : CallMode) (activeCalls : Int)
    (text : Option String) (finishReason : Option String) : String :=
  linePfx modelName callId ++ "✅ Complete " ++ mode.str ++ ": " ++
    tokenInfo usage ++ " in " ++ durationStr startTime now ++
    "s | active: " ++ toString activeCalls ++ finishInfo finishReason ++
    resultSuffixStr text

/-- Outcome of one wrapped call: the forwarded result, the new call
counter, the new active-call counter and the log lines written. -/
structure GenOut where
  result : Except JsonVal GenResult
  callCounter : Nat
  activeCalls : Int
  logs : List String

/-- Per-content-part processing of model-logging.ts `wrapGenerate`
(lines 227-253): accumulate text parts and `tool:` markers, maintain the
tool-call-id map, and log tool calls and tool results. -/
def genPartStep (modelName : String) (callId : Nat)
    (acc : List String × List (String × String) × List String)
    (part : ContentPart) : List String × List (String × String) × List String :=
  match part with
  | .text t => (acc.1 ++ [t], acc.2.1, acc.2.2)
  | .toolCall toolCallId toolName args input =>
    let textParts := acc.1 ++ ["tool:" ++ toolName]
    let m := if toolCallId == "" then acc.2.1 else mapSet acc.2.1 toolCallId toolName
    let line := linePfx modelName callId ++ "🔧 " ++ toolName ++ "(" ++
      getToolArguments args input ++ ")"
    (textParts, m, acc.2.2 ++ [line])
  | .toolResult toolCallId result =>
    let toolName := if toolCallId == "" then "unknown"
      else (mapGet acc.2.1 toolCallId).getD "unknown"
    let line := linePfx modelName callId ++ "📥 " ++ toolName ++ " → " ++
      formatToolResult result
    (acc.1, acc.2.1, acc.2.2 ++ [line])
  | .other => acc

/-- model-logging.ts `wrapGenerate` (lines 210-272): increment the call
counter and active count, log the start line, then either process the
result parts and log exactly one completion line, or (when `doGenerate`
throws) decrement once and re-throw the same error. -/
def wrapGenerate (modelName : String) (callCounter : Nat) (activeCalls : Int)
    (params : Option (List PromptMessage)) (startTime now : Nat)
    (doGenerate : Except JsonVal GenResult) : GenOut :=
  let callId := callCounter + 1
  let promptSfx := formatPromptSuffix (getPromptPreview params)
  let active1 := activeCalls + 1
  let start := startLine modelName callId "generating" promptSfx active1
  match doGenerate with
  | .error e => ⟨.error e, callId, active1 - 1, [start]⟩
  | .ok r =>
    let active2 := active1 - 1
    let acc := r.content.foldl (genPartStep modelName callId) ([], [], [])
    let text := String.intercalate ", " acc.1
    let completion := logCompletion modelName callId startTime now r.usage
      .generating active2 (some text) none
    ⟨.ok r, callId, active2, [start] ++ acc.2.2 ++ [completion]⟩

/-- Per-stream mutable accumulators of model-logging.ts `wrapStream`
(lines 294-300). -/
structure St where
  fullText : String
  reasoningText : String
  toolInputs : List (String × String)
  toolCallIds : List (String × String)
  loggedToolCalls : List String
  streamFinished : Bool
  finishReason : Option String

/-- Initial accumulator state of one streaming call. -/
def St.init : St := ⟨"", "", [], [], [], false, none⟩

/-- Everything before the first `-` of a logged-tool-call key, the
JavaScript `key.split('-')[0]` of model-logging.ts line 385. -/
def splitHead (s : String) : String :=
  ⟨s.data.takeWhile (fun c => c != '-')⟩

/-- The combined completion text built in the `finish` branch
(model-logging.ts lines 393-398 and, identically, model-progress.ts
lines 237-242): accumulated text plus the comma-joined tool list. -/
def combineLogText (fullText toolLog : String) : String :=
  if fullText != "" then
    (if toolLog != "" then fullText ++ ", " ++ toolLog else fullText)
  else
    (if toolLog != "" then toolLog else fullText)

/-- One invocation of the model-logging.ts `transform` callback
(lines 303-425) on one chunk: returns the new accumulator state, the log
lines written and the chunks enqueued downstream. The callback reads but
never writes `activeCalls` (the decrement lives in `flush`), so the counter
is passed read-only. The `catch` arm of the source needs a thrown
JavaScript exception, which the modelled total operations cannot produce. -/
def transformChunk (modelName : String) (callId : Nat) (startTime now : Nat)
    (activeCalls : Int) (st : St) (chunk : Chunk) : St × List String × List Chunk :=
  let pfx := linePfx modelName callId
  let pre : St × List String := match chunk with
    | .textDelta d => ({ st with fullText := st.fullText ++ d }, [])
    | .reasoningStart => (st, [pfx ++ "🧠 Reasoning..."])
    | .reasoningDelta d => ({ st with reasoningText := st.reasoningText ++ d }, [])
    | .reasoningEnd =>
      let preview := normTrimCollapse st.reasoningText
      let truncated := if preview.length > PREVIEW_LIMIT
        then preview.take PREVIEW_LIMIT ++ "..." else preview
      (st, [pfx ++ "🧠 Reasoning complete: \"" ++ truncated ++ "\""])
    | .toolCall toolCallId toolName args input =>
      let st1 := if toolCallId == "" then st
        else { st with toolCallIds := mapSet st.toolCallIds toolCallId toolName }
      let callKey := if toolCallId == "" then toolName ++ "-default"
        else toolName ++ "-" ++ toolCallId
      if callKey ∈ st1.loggedToolCalls then (st1, [])
      else
        ({ st1 with loggedToolCalls := st1.loggedToolCalls ++ [callKey] },
          [pfx ++ "🔧 " ++ toolName ++ "(" ++ getToolArguments args input ++ ")"])
    | .toolInputStart id toolName =>
      ({ st with toolCallIds := mapSet st.toolCallIds id toolName,
                 toolInputs := mapSet st.toolInputs id "" }, [])
    | .toolInputDelta id d =>
      let currentInput := (mapGet st.toolInputs id).getD ""
      ({ st with toolInputs := mapSet st.toolInputs id (currentInput ++ d) }, [])
    | .toolInputEnd id =>
      match mapGet st.toolCallIds id with
      | none => (st, [])
      | some toolName =>
        let callKey := toolName ++ "-" ++ id
        let next : St × List String :=
          if callKey ∈ st.loggedToolCalls then (st, [])
          else
            ({ st with loggedToolCalls := st.loggedToolCalls ++ [callKey] },
              [pfx ++ "🔧 " ++ toolName ++ "(" ++
                ((mapGet st.toolInputs id).getD "") ++ ")"])
        ({ next.1 with toolInputs := mapDelete next.1.toolInputs id }, next.2)
    | .toolResult toolCallId result =>
      (st, [pfx ++ "📥 " ++ ((mapGet st.toolCallIds toolCallId).getD "unknown") ++
        " → " ++ formatToolResult result])
    | .error e => (st, [pfx ++ "❌ Model error: " ++ jsToString e])
    | .finish _ _ => (st, [])
  match chunk with
  | .finish reason usage =>
    let st2 := { pre.1 with streamFinished := true, finishReason := some reason }
    let uniqueTools := (st2.loggedToolCalls.map splitHead).foldl setAdd []
    let toolLog := String.intercalate ", " (uniqueTools.map (fun n => "tool:" ++ n))
    let logText := combineLogText st2.fullText toolLog
    let line := logCompletion modelName callId startTime now usage .streaming
      (activeCalls - 1) (some logText) (some reason)
    ({ st2 with toolInputs := [], toolCallIds := [], loggedToolCalls := [] },
      pre.2 ++ [line], [chunk])
  | _ => (pre.1, pre.2, [chunk])

/-- Sequential processing of a whole chunk list by the transform callback,
collecting log lines and enqueued chunks. -/
def runChunks (modelName : String) (callId : Nat) (startTime now : Nat)
    (activeCalls : Int) : St → List Chunk → St × List String × List Chunk
  | st, [] => (st, [], [])
  | st, c :: rest =>
    let step := transformChunk modelName callId startTime now activeCalls st c
    let tail := runChunks modelName callId startTime now activeCalls step.1 rest
    (tail.1, step.2.1 ++ tail.2.1, step.2.2 ++ tail.2.2)

/-- The model-logging.ts `flush` callback (lines 427-443): decrement the
active count exactly once — with a warning line when the stream ended
without a `finish` chunk — and clear the per-call maps. Returns the new
counter and the lines written. -/
def flushStream (modelName : String) (callId : Nat) (activeCalls : Int)
    (st : St) : Int × List String × St :=
  let active2 := activeCalls - 1
  let lines := if st.streamFinished then []
    else [linePfx modelName callId ++ "⚠️  Stream ended without finish chunk | active: " ++
      toString active2]
  (active2, lines, { st with toolInputs := [], toolCallIds := [], loggedToolCalls := [] })

/-- Outcome of one wrapped streaming call, after the downstream consumer
has drained the stream and the stream has closed. -/
structure StreamOut where
  emitted : Except JsonVal (List Chunk)
  callCounter : Nat
  activeCalls : Int
  logs : List String

/-- model-logging.ts `wrapStream` (lines 274-450): increment the counters
and log the start line; when `doStream` throws, decrement once and re-throw
the same error; otherwise run the transform over every chunk of the
underlying stream and then the `flush` hook at stream close. -/
def wrapStream (modelName : String) (callCounter : Nat) (activeCalls : Int)
    (params : Option (List PromptMessage)) (startTime now : Nat)
    (doStream : Except JsonVal (List Chunk)) : StreamOut :=
  let callId := callCounter + 1
  let promptSfx := formatPromptSuffix (getPromptPreview params)
  let active1 := activeCalls + 1
  let start := startLine modelName callId "streaming" promptSfx active1
  match doStream with
  | .error e => ⟨.error e, callId, active1 - 1, [start]⟩
  | .ok chunks =>
    let run := runChunks modelName callId startTime now active1 St.init chunks
    let fl := flushStream modelName callId active1 run.1
    ⟨.ok run.2.2, callId, fl.1, [start] ++ run.2.1 ++ fl.2.1⟩

end ML

namespace MP

/-- The single token figure of model-progress.ts `logCompletion` (line 22):
`usage?.outputTokens ?? usage?.totalTokens ?? 0`. -/
def outputFigure (usage : Option Usage) : Nat :=
  match usage with
  | none => 0
  | some u =>
    match u.outputTokens with
    | some o => o
    | none =>
      match u.totalTokens with
      | some t => t
      | none => 0

/-- The completion line written by model-progress.ts `logCompletion`
(lines 12-37). -/
def logCompletion (modelName : String) (callId : Nat) (startTime now : Nat)
    (usage : Option Usage) (mode : CallMode) (activeCalls : Int)
    (text : Option String) : String :=
  linePfx modelName callId ++ "✅ Complete " ++ mode.str ++ ": " ++
    toString (outputFigure usage) ++ " tokens in " ++ durationStr startTime now ++
    "s | active: " ++ toString activeCalls ++ resultSuffixStr text

/-- Outcome of one wrapped generate call (model-progress variant). -/
structure GenOut where
  result : Except JsonVal GenResult
  callCounter : Nat
  activeCalls : Int
  logs : List String

/-- The completion text of model-progress.ts `wrapGenerate` (lines 164-177):
map parts to their text or `tool:` marker, drop the rest and — through
`filter(Boolean)` — empty strings, and join with commas. -/
def genText (content : List ContentPart) : String :=
  String.intercalate ", "
    ((content.filterMap (fun part =>
      match part with
      | .text t => some t
      | .toolCall _ toolName _ _ => some ("tool:" ++ toolName)
      | _ => none)).filter (fun s => s != ""))

/-- model-progress.ts `wrapGenerate` (lines 150-194). -/
def wrapGenerate (modelName : String) (callCounter : Nat) (activeCalls : Int)
    (params : Option (List PromptMessage)) (startTime now : Nat)
    (doGenerate : Except JsonVal GenResult) : GenOut :=
  let callId := callCounter + 1
  let promptSfx := formatPromptSuffix (getPromptPreview params)
  let active1 := activeCalls + 1
  let start := startLine modelName callId "generating" promptSfx active1
  match doGenerate with
  | .error e => ⟨.error e, callId, active1 - 1, [start]⟩
  | .ok r =>
    let active2 := active1 - 1
    let completion := logCompletion modelName callId startTime now r.usage
      .generating active2 (some (genText r.content))
    ⟨.ok r, callId, active2, [start, completion]⟩

/-- Per-stream accumulators of model-progress.ts `wrapStream`
(lines 216-217): the accumulated text and the set of tool names. -/
structure St where
  fullText : String
  toolNames : List String

/-- Initial accumulator state. -/
def St.init : St := ⟨"", []⟩

/-- One invocation of the model-progress.ts `transform` callback
(lines 219-246). Unlike the model-logging variant it decrements
`activeCalls` itself when the chunk is `finish`, so the counter is threaded
through. -/
def transformChunk (modelName : String) (callId : Nat) (startTime now : Nat)
    (activeCalls : Int) (st : St) (chunk : Chunk) :
    St × Int × List String × List Chunk :=
  let pre : St := match chunk with
    | .textDelta d => { st with fullText := st.fullText ++ d }
    | .toolCall _ toolName _ _ => { st with toolNames := setAdd st.toolNames toolName }
    | .toolInputStart _ toolName => { st with toolNames := setAdd st.toolNames toolName }
    | _ => st
  match chunk with
  | .finish _ usage =>
    let active2 := activeCalls - 1
    let toolLog := String.intercalate ", " (pre.toolNames.map (fun n => "tool:" ++ n))
    let logText := ML.combineLogText pre.fullText toolLog
    let line := logCompletion modelName callId startTime now usage .streaming
      active2 (some logText)
    (pre, active2, [line], [chunk])
  | _ => (pre, activeCalls, [], [chunk])

/-- Sequential processing of a whole chunk list by the model-progress
transform callback, threading the active-call counter. -/
def runChunks (modelName : String) (callId : Nat) (startTime now : Nat) :
    Int → St → List Chunk → St × Int × List String × List Chunk
  | activeCalls, st, [] => (st, activeCalls, [], [])
  | activeCalls, st, c :: rest =>
    let step := transformChunk modelName callId startTime now activeCalls st c
    let tail := runChunks modelName callId startTime now step.2.1 step.1 rest
    (tail.1, tail.2.1, step.2.2.1 ++ tail.2.2.1, step.2.2.2 ++ tail.2.2.2)

/-- Outcome of one wrapped streaming call (model-progress variant). -/
structure StreamOut where
  emitted : Except JsonVal (List Chunk)
  callCounter : Nat
  activeCalls : Int
  logs : List String

/-- model-progress.ts `wrapStream` (lines 196-253). The `TransformStream`
of this variant defines no `flush` hook, so nothing runs at stream close:
the only decrement on the streaming path is the one in the `finish` branch
of the transform callback. -/
def wrapStream (modelName : String) (callCounter : Nat) (activeCalls : Int)
    (params : Option (List PromptMessage)) (startTime now : Nat)
    (doStream : Except JsonVal (List Chunk)) : StreamOut :=
  let callId := callCounter + 1
  let promptSfx := formatPromptSuffix (getPromptPreview params)
  let active1 := activeCalls + 1
  let start := startLine modelName callId "streaming" promptSfx active1
  match doStream with
  | .error e => ⟨.error e, callId, active1 - 1, [start]⟩
  | .ok chunks =>
    let run := runChunks modelName callId startTime now active1 St.init chunks
    ⟨.ok run.2.2.2, callId, run.2.1, [start] ++ run.2.2.1⟩

end MP

/-- Recognizer for `finish` chunks. -/
def isFinish : Chunk → Bool
  | .finish _ _ => true
  | _ => false

/-- Number of `finish` chunks delivered by a stream. -/
def countFinish (chunks : List Chunk) : Nat :=
  chunks.countP isFinish

/-- One completed wrapped call, as far as counter bookkeeping can observe
it: a generate call that returned or threw, a streaming call whose
`doStream` threw, or a streaming call whose stream delivered the given
chunks and then closed. -/
inductive CallSpec where
  | genOk (r : GenResult)
  | genThrow (e : JsonVal)
  | streamThrow (e : JsonVal)
  | streamRun (chunks : List Chunk)

namespace ML

/-- Counter effect of one wrapped call, run to completion, in the
model-logging variant: the resulting call counter and active-call counter. -/
def runCall (modelName : String) (cc : Nat) (ac : Int) : CallSpec → Nat × Int
  | .genOk r =>
    let o := wrapGenerate modelName cc ac none 0 0 (.ok r); (o.callCounter, o.activeCalls)
  | .genThrow e =>
    let o := wrapGenerate modelName cc ac none 0 0 (.error e); (o.callCounter, o.activeCalls)
  | .streamThrow e =>
    let o := wrapStream modelName cc ac none 0 0 (.error e); (o.callCounter, o.activeCalls)
  | .streamRun chunks =>
    let o := wrapStream modelName cc ac none 0 0 (.ok chunks); (o.callCounter, o.activeCalls)

/-- Sequential completion of a list of wrapped calls against one
model-logging wrapper instance, starting from the given counters. -/
def runCalls (modelName : String) : Nat × Int → List CallSpec → Nat × Int
  | s, [] => s
  | s, c :: rest => runCalls modelName (runCall modelName s.1 s.2 c) rest

/-- The `activeCalls` increments and decrements the model-logging transform
callback performs while processing one chunk: none — the callback only
reads the counter (the streaming decrement lives in `flush`). -/
def chunkDeltas : Chunk → List Int := fun _ => []

/-- The ordered `activeCalls` increments and decrements one wrapped call
performs over its lifetime in the model-logging variant: `+1` at call
start; `-1` in the generate success path, the generate catch, the stream
catch, or the stream `flush` hook. -/
def callDeltas : CallSpec → List Int
  | .genOk _ => [1, -1]
  | .genThrow _ => [1, -1]
  | .streamThrow _ => [1, -1]
  | .streamRun chunks => 1 :: ((chunks.map chunkDeltas).flatten ++ [-1])

end ML

namespace MP

/-- Counter effect of one wrapped call, run to completion, in the
model-progress variant. -/
def runCall (modelName : String) (cc : Nat) (ac : Int) : CallSpec → Nat × Int
  | .genOk r =>
    let o := wrapGenerate modelName cc ac none 0 0 (.ok r); (o.callCounter, o.activeCalls)
  | .genThrow e =>
    let o := wrapGenerate modelName cc ac none 0 0 (.error e); (o.callCounter, o.activeCalls)
  | .streamThrow e =>
    let o := wrapStream modelName cc ac none 0 0 (.error e); (o.callCounter, o.activeCalls)
  | .streamRun chunks =>
    let o := wrapStream modelName cc ac none 0 0 (.ok chunks); (o.callCounter, o.activeCalls)

/-- Sequential completion of a list of wrapped calls against one
model-progress wrapper instance. -/
def runCalls (modelName : String) : Nat × Int → List CallSpec → Nat × Int
  | s, [] => s
  | s, c :: rest => runCalls modelName (runCall modelName s.1 s.2 c) rest

/-- The `activeCalls` increments and decrements the model-progress
transform callback performs while processing one chunk: a decrement on
every `finish` chunk, nothing otherwise. -/
def chunkDeltas : Chunk → List Int
  | .finish _ _ => [-1]
  | _ => []

/-- The ordered `activeCalls` increments and decrements one wrapped call
performs in the model-progress variant. A streaming call that starts
successfully decrements only at `finish` chunks: this variant installs no
`flush` hook. -/
def callDeltas : CallSpec → List Int
  | .genOk _ => [1, -1]
  | .genThrow _ => [1, -1]
  | .streamThrow _ => [1, -1]
  | .streamRun chunks => 1 :: (chunks.map chunkDeltas).flatten

/-- A call whose counter bookkeeping balances in the model-progress
variant: any generate call or failed stream start, or a stream that
delivered exactly one `finish` chunk before closing. -/
def balancedB : CallSpec → Bool
  | .streamRun chunks => countFinish chunks == 1
  | _ => true

end MP

/-- Concrete call sequence used to witness the counter-balance theorem:
one successful generate call, one throwing generate call, one failing
stream start and one stream with exactly one finish chunk. -/
def c1calls : List CallSpec :=
  [CallSpec.genOk ⟨[], none⟩,
   CallSpec.genThrow JsonVal.jnull,
   CallSpec.streamThrow JsonVal.jnull,
   CallSpec.streamRun [Chunk.textDelta "a", Chunk.finish "stop" none]]

/-- Concrete interleaving (here: the order of completion) of the counter
operations of `c1calls`. -/
def c1ops : List Int :=
  (c1calls.map ML.callDeltas).flatten

/-- Absence of text content in one prompt part. -/
def partIsNonText : PromptPart → Bool
  | .text _ => false
  | .other => true

/-- Absence of text content in one prompt message: a message whose content
is not an array, or a part list with no text part. -/
def msgNonText : PromptMessage → Bool
  | .system _ => false
  | .parts ps => ps.all partIsNonText
  | .nonArrayContent => true

/-! Helper lemmas tying the step functions to the whole-stream runs. -/

/-- The model-logging transform forwards exactly the chunk it was handed. -/
theorem ML.mlStep_enqueued (m : String) (cid s n : Nat) (ac : Int)
    (st : ML.St) (c : Chunk) :
    (ML.transformChunk m cid s n ac st c).2.2 = [c] := by
  cases c <;> rfl

/-- The model-logging transform, run over a whole chunk list, forwards the
list unchanged. -/
theorem ML.mlRun_emitted (m : String) (cid s n : Nat) (ac : Int) :
    ∀ (chunks : List Chunk) (st : ML.St),
      (ML.runChunks m cid s n ac st chunks).2.2 = chunks := by
  intro chunks
  induction chunks with
  | nil => intro st; rfl
  | cons c rest ih =>
    intro st
    simp [ML.runChunks, ML.mlStep_enqueued, ih]

/-- The model-progress transform forwards exactly the chunk it was handed. -/
theorem MP.mpStep_enqueued (m : String) (cid s n : Nat) (ac : Int)
    (st : MP.St) (c : Chunk) :
    (MP.transformChunk m cid s n ac st c).2.2.2 = [c] := by
  cases c <;> rfl

/-- The model-progress transform, run over a whole chunk list, forwards
the list unchanged. -/
theorem MP.mpRun_emitted (m : String) (cid s n : Nat) :
    ∀ (chunks : List Chunk) (ac : Int) (st : MP.St),
      (MP.runChunks m cid s n ac st chunks).2.2.2 = chunks := by
  intro chunks
  induction chunks with
  | nil => intro ac st; rfl
  | cons c rest ih =>
    intro ac st
    simp [MP.runChunks, MP.mpStep_enqueued, ih]

/-- Counter effect of one model-progress transform invocation: a decrement
exactly on `finish` chunks. -/
theorem MP.mpStep_counter (m : String) (cid s n : Nat) (ac : Int)
    (st : MP.St) (c : Chunk) :
    (MP.transformChunk m cid s n ac st c).2.1 =
      ac - (if isFinish c then 1 else 0) := by
  cases c <;> simp [MP.transformChunk, isFinish]

/-- Counter effect of a whole model-progress stream: one decrement per
`finish` chunk. -/
theorem MP.mpRun_counter (m : String) (cid s n : Nat) :
    ∀ (chunks : List Chunk) (ac : Int) (st : MP.St),
      (MP.runChunks m cid s n ac st chunks).2.1 = ac - countFinish chunks := by
  intro chunks
  induction chunks with
  | nil => intro ac st; simp [MP.runChunks, countFinish]
  | cons c rest ih =>
    intro ac st
    simp only [MP.runChunks, ih, MP.mpStep_counter, countFinish,
      List.countP_cons]
    cases h : isFinish c
    · simp [h]
    · simp [h]
      omega

/-- One completed call restores the model-logging active-call counter. -/
theorem ML.mlRunCall_counter (m : String) (cc : Nat) (ac : Int) (c : CallSpec) :
    (ML.runCall m cc ac c).2 = ac := by
  cases c with
  | genOk r =>
    simp [ML.runCall, ML.wrapGenerate]
  | genThrow e =>
    simp [ML.runCall, ML.wrapGenerate]
  | streamThrow e =>
    simp [ML.runCall, ML.wrapStream]
  | streamRun chunks =>
    simp [ML.runCall, ML.wrapStream, ML.flushStream]

/-- Any sequence of completed calls restores the model-logging active-call
counter to its starting value. -/
theorem ML.mlRunCalls_counter (m : String) :
    ∀ (calls : List CallSpec) (s : Nat × Int),
      (ML.runCalls m s calls).2 = s.2 := by
  intro calls
  induction calls with
  | nil => intro s; rfl
  | cons c rest ih =>
    intro s
    simp [ML.runCalls, ih, ML.mlRunCall_counter]

/-- Per-chunk counter deltas of the model-logging transform are all empty. -/
theorem ML.mlChunkDeltas_flatten (chunks : List Chunk) :
    (chunks.map ML.chunkDeltas).flatten = ([] : List Int) := by
  induction chunks with
  | nil => rfl
  | cons c rest ih => simp [ML.chunkDeltas, ih]

/-- The counter operations of any one model-logging call sum to zero. -/
theorem ML.mlCallDeltas_sum (c : CallSpec) : (ML.callDeltas c).sum = 0 := by
  cases c <;> simp [ML.callDeltas, ML.mlChunkDeltas_flatten]

/-- The counter operations of any model-logging call sequence sum to zero. -/
theorem ML.mlCallsDeltas_sum (calls : List CallSpec) :
    ((calls.map ML.callDeltas).flatten).sum = 0 := by
  induction calls with
  | nil => rfl
  | cons c rest ih => simp [List.sum_append, ih, ML.mlCallDeltas_sum]

/-- Summed counter deltas of a model-progress stream: minus the number of
`finish` chunks. -/
theorem MP.mpChunkDeltas_sums (chunks : List Chunk) :
    (List.map (List.sum ∘ MP.chunkDeltas) chunks).sum = -(countFinish chunks : Int) := by
  induction chunks with
  | nil => simp [countFinish]
  | cons c rest ih =>
    cases c <;>
      simp [MP.chunkDeltas, countFinish, isFinish, List.countP_cons, ih]

/-- The counter operations of one balanced model-progress call sum to zero. -/
theorem MP.mpCallDeltas_sum (c : CallSpec) (h : MP.balancedB c = true) :
    (MP.callDeltas c).sum = 0 := by
  cases c with
  | genOk r => simp [MP.callDeltas]
  | genThrow e => simp [MP.callDeltas]
  | streamThrow e => simp [MP.callDeltas]
  | streamRun chunks =>
    simp [MP.balancedB] at h
    simp [MP.callDeltas, MP.mpChunkDeltas_sums, h]

/-- The counter operations of a balanced model-progress call sequence sum
to zero. -/
theorem MP.mpCallsDeltas_sum (calls : List CallSpec)
    (h : ∀ c ∈ calls, MP.balancedB c = true) :
    ((calls.map MP.callDeltas).flatten).sum = 0 := by
  induction calls with
  | nil => rfl
  | cons c rest ih =>
    simp only [List.map_cons, List.flatten_cons, List.sum_append]
    rw [MP.mpCallDeltas_sum c (h c (List.mem_cons_self c rest)),
      ih (fun d hd => h d (List.mem_cons_of_mem c hd))]
    simp

/-- Counter effect of one completed model-progress call equals the sum of
its counter operations. -/
theorem MP.mpRunCall_counter (m : String) (cc : Nat) (ac : Int) (c : CallSpec) :
    (MP.runCall m cc ac c).2 = ac + (MP.callDeltas c).sum := by
  cases c with
  | genOk r => simp [MP.runCall, MP.wrapGenerate, MP.callDeltas]
  | genThrow e => simp [MP.runCall, MP.wrapGenerate, MP.callDeltas]
  | streamThrow e => simp [MP.runCall, MP.wrapStream, MP.callDeltas]
  | streamRun chunks =>
    simp [MP.runCall, MP.wrapStream, MP.mpRun_counter, MP.callDeltas,
      MP.mpChunkDeltas_sums]
    omega

/-- Any sequence of balanced completed calls restores the model-progress
active-call counter to its starting value. -/
theorem MP.mpRunCalls_counter (m : String) :
    ∀ (calls : List CallSpec) (s : Nat × Int),
      (∀ c ∈ calls, MP.balancedB c = true) →
      (MP.runCalls m s calls).2 = s.2 := by
  intro calls
  induction calls with
  | nil => intro s _; rfl
  | cons c rest ih =>
    intro s h
    have hc := h c (List.mem_cons_self c rest)
    have hrest := fun d hd => h d (List.mem_cons_of_mem c hd)
    simp only [MP.runCalls]
    rw [ih _ hrest]
    simp [MP.mpRunCall_counter, MP.mpCallDeltas_sum c hc]

/-! Claim theorems. -/

/-- Claim C1, amended. For the model-logging wrapper the active-call
counter returns to exactly 0 after any sequence of completed calls —
whatever the interleaving of their counter operations — on every
completion path (success, thrown error, or stream closure without a
`finish` chunk, handled by its `flush` hook). For the model-progress
wrapper, which decrements only on `finish` chunks and installs no
end-of-stream hook, the same holds provided every stream that starts
successfully delivers exactly one `finish` chunk before closing. An
interleaving of the calls' counter operations is any permutation of their
concatenation, and the counter after all calls complete is its sum. -/
theorem active_calls_return_to_zero (modelName : String) (calls : List CallSpec)
    (ops : List Int) :
    ((ML.runCalls modelName (0, 0) calls).2 = 0)
    ∧ (ops.Perm ((calls.map ML.callDeltas).flatten) → ops.sum = 0)
    ∧ ((∀ c ∈ calls, MP.balancedB c = true) →
        (MP.runCalls modelName (0, 0) calls).2 = 0)
    ∧ ((∀ c ∈ calls, MP.balancedB c = true) →
        ops.Perm ((calls.map MP.callDeltas).flatten) → ops.sum = 0) := by
  refine ⟨ML.mlRunCalls_counter modelName calls (0, 0), ?_, ?_, ?_⟩
  · intro h
    rw [h.sum_eq]
    exact ML.mlCallsDeltas_sum calls
  · intro hb
    exact MP.mpRunCalls_counter modelName calls (0, 0) hb
  · intro hb h
    rw [h.sum_eq]
    exact MP.mpCallsDeltas_sum calls hb

/-- Witness for the amended claim C1 at the concrete call sequence
`c1calls` and the concrete interleaving `c1ops`. -/
theorem active_calls_return_to_zero_witness :
    (∀ c ∈ c1calls, MP.balancedB c = true)
    ∧ c1ops.Perm ((c1calls.map ML.callDeltas).flatten)
    ∧ c1ops.Perm ((c1calls.map MP.callDeltas).flatten)
    ∧ (ML.runCalls "m" (0, 0) c1calls).2 = 0
    ∧ (MP.runCalls "m" (0, 0) c1calls).2 = 0
    ∧ c1ops.sum = 0 := by
  have hb : ∀ c ∈ c1calls, MP.balancedB c = true := by decide
  have p1 : c1ops.Perm ((c1calls.map ML.callDeltas).flatten) := List.Perm.refl _
  have e : c1ops = (c1calls.map MP.callDeltas).flatten := by decide
  have p2 : c1ops.Perm ((c1calls.map MP.callDeltas).flatten) := by
    rw [← e]
  exact ⟨hb, p1, p2, (active_calls_return_to_zero "m" c1calls c1ops).1,
    (active_calls_return_to_zero "m" c1calls c1ops).2.2.1 hb,
    (active_calls_return_to_zero "m" c1calls c1ops).2.2.2 hb p2⟩

/-- Counterexample to claim C1 as stated: against the model-progress
wrapper, a single streaming call whose stream closes without ever
delivering a `finish` chunk leaves the active-call counter at 1, not 0. -/
theorem active_calls_leak_counterexample :
    (MP.runCalls "m" (0, 0) [CallSpec.streamRun [Chunk.textDelta "x"]]).2 = 1
    ∧ (1 : Int) ≠ 0 :=
  ⟨rfl, by decide⟩

/-- Claim C2. Both stream transforms forward the underlying stream's chunk
sequence to the downstream consumer identically: same elements, same
order, nothing dropped, duplicated or inserted. -/
theorem stream_chunks_forwarded_unmodified (m : String) (cc : Nat) (ac : Int)
    (params : Option (List PromptMessage)) (s n : Nat) (chunks : List Chunk) :
    (ML.wrapStream m cc ac params s n (.ok chunks)).emitted = .ok chunks
    ∧ (MP.wrapStream m cc ac params s n (.ok chunks)).emitted = .ok chunks := by
  constructor
  · simp [ML.wrapStream, ML.mlRun_emitted]
  · simp [MP.wrapStream, MP.mpRun_emitted]

/-- Claim C3. When the wrapped `doGenerate` throws, both wrappers restore
the active-call counter (one decrement matching the one increment),
re-throw the very same error value, and write only the start line — no
retry, no suppression, no substitute result, no completion line. -/
theorem generate_error_rethrown (m : String) (cc : Nat) (ac : Int)
    (params : Option (List PromptMessage)) (s n : Nat) (e : JsonVal) :
    ((ML.wrapGenerate m cc ac params s n (.error e)).result = .error e
      ∧ (ML.wrapGenerate m cc ac params s n (.error e)).activeCalls = ac
      ∧ (ML.wrapGenerate m cc ac params s n (.error e)).logs =
          [startLine m (cc + 1) "generating"
            (formatPromptSuffix (getPromptPreview params)) (ac + 1)])
    ∧ ((MP.wrapGenerate m cc ac params s n (.error e)).result = .error e
      ∧ (MP.wrapGenerate m cc ac params s n (.error e)).activeCalls = ac
      ∧ (MP.wrapGenerate m cc ac params s n (.error e)).logs =
          [startLine m (cc + 1) "generating"
            (formatPromptSuffix (getPromptPreview params)) (ac + 1)]) := by
  refine ⟨⟨rfl, ?_, rfl⟩, ⟨rfl, ?_, rfl⟩⟩
  · simp [ML.wrapGenerate]
  · simp [MP.wrapGenerate]

/-- Claim C4, evaluation at the failing input. A stream delivers two
tool-call chunks with distinct identifiers for the tools `get-weather` and
`sum`, then `finish`. The model-logging wrapper stores logged-tool keys of
the form `toolName-toolCallId` and recovers the name as everything before
the first `-`, so its completion preview lists `tool:get, tool:sum` — not
the invoked tool's name `get-weather` — while the model-progress wrapper,
which keeps a plain name set, lists `tool:get-weather, tool:sum`, each
exactly once. -/
theorem completion_preview_tool_name_mangled :
    (ML.wrapStream "m" 0 0 none 0 0
        (.ok [Chunk.toolCall "1" "get-weather" none none,
              Chunk.toolCall "2" "sum" none none,
              Chunk.finish "stop" none])).logs =
      ["[m #1] 🚩 Start streaming | active: 1",
       "[m #1] 🔧 get-weather()",
       "[m #1] 🔧 sum()",
       "[m #1] ✅ Complete streaming: 0 tokens in 0.00s | active: 0 | reason: stop | result: \"tool:get, tool:sum\""]
    ∧ (MP.wrapStream "m" 0 0 none 0 0
        (.ok [Chunk.toolCall "1" "get-weather" none none,
              Chunk.toolCall "2" "sum" none none,
              Chunk.finish "stop" none])).logs =
      ["[m #1] 🚩 Start streaming | active: 1",
       "[m #1] ✅ Complete streaming: 0 tokens in 0.00s | active: 0 | result: \"tool:get-weather, tool:sum\""] :=
  ⟨rfl, rfl⟩

/-- Counterexample to claim C5 as stated: in the model-progress
`logCompletion`, an absent output-token count does not default to zero —
it falls back to the total-token count. With usage
`(input 10, output absent, total 50)` the line reports 50 tokens, not the
0 that defaulting to zero would produce. -/
theorem token_figure_default_counterexample :
    MP.logCompletion "m" 1 0 0 (some ⟨some 10, none, some 50⟩) .streaming 0 none =
      "[m #1] ✅ Complete streaming: 50 tokens in 0.00s | active: 0"
    ∧ MP.logCompletion "m" 1 0 0 (some ⟨some 10, none, some 50⟩) .streaming 0 none ≠
      "[m #1] ✅ Complete streaming: 0 tokens in 0.00s | active: 0" :=
  ⟨rfl, by decide⟩

/-- Claim C5, amended. The completion line's token figures come from the
call's usage record. In the model-logging variant input and output counts
each default to zero when absent (an absent count is reported exactly like
an explicit zero). In the model-progress variant the single reported
figure is the output-token count, falling back to the total-token count
and only then to zero. In particular, for the streaming call
`text-delta("Hello "), text-delta("world"), finish(usage (input 10,
output 2))` both variants report 2 output tokens and the preview
`Hello world`. -/
theorem completion_token_figures (i o t : Nat) (iOpt oT : Option Nat) :
    (ML.tokenInfo (some ⟨some i, some o, oT⟩) =
        (if 0 < i then toString i ++ "→" ++ toString o ++ " tokens"
         else toString o ++ " tokens"))
    ∧ ML.tokenInfo (some ⟨none, some o, oT⟩) = ML.tokenInfo (some ⟨some 0, some o, oT⟩)
    ∧ ML.tokenInfo (some ⟨some i, none, oT⟩) = ML.tokenInfo (some ⟨some i, some 0, oT⟩)
    ∧ ML.tokenInfo none = ML.tokenInfo (some ⟨some 0, some 0, none⟩)
    ∧ MP.outputFigure (some ⟨iOpt, some o, oT⟩) = o
    ∧ MP.outputFigure (some ⟨iOpt, none, some t⟩) = t
    ∧ MP.outputFigure (some ⟨iOpt, none, none⟩) = 0
    ∧ MP.outputFigure none = 0
    ∧ (ML.wrapStream "m" 0 0 none 0 0
        (.ok [Chunk.textDelta "Hello ", Chunk.textDelta "world",
              Chunk.finish "stop" (some ⟨some 10, some 2, none⟩)])).logs =
      ["[m #1] 🚩 Start streaming | active: 1",
       "[m #1] ✅ Complete streaming: 10→2 tokens in 0.00s | active: 0 | reason: stop | result: \"Hello world\""]
    ∧ (MP.wrapStream "m" 0 0 none 0 0
        (.ok [Chunk.textDelta "Hello ", Chunk.textDelta "world",
              Chunk.finish "stop" (some ⟨some 10, some 2, none⟩)])).logs =
      ["[m #1] 🚩 Start streaming | active: 1",
       "[m #1] ✅ Complete streaming: 2 tokens in 0.00s | active: 0 | result: \"Hello world\""] :=
  ⟨rfl, rfl, rfl, rfl, rfl, rfl, rfl, rfl, rfl, rfl⟩

/-- Claim C6. Whenever the whitespace-normalized result text exceeds the
40-character budget, the preview in the completion line is exactly the
first 40 characters of the normalized text followed by the ellipsis
marker, and the logged suffix quotes the escaped form of exactly that. -/
theorem long_result_preview_truncated (text : String)
    (h : PREVIEW_LIMIT < (normTrimCollapse text).length) :
    resultPreviewStr text = (normTrimCollapse text).take PREVIEW_LIMIT ++ "..."
    ∧ resultSuffixStr (some text) =
        " | result: \"" ++
          escapeQuotes ((normTrimCollapse text).take PREVIEW_LIMIT ++ "...") ++ "\"" := by
  have h1 : resultPreviewStr text = (normTrimCollapse text).take PREVIEW_LIMIT ++ "..." := by
    simp [resultPreviewStr, h]
  refine ⟨h1, ?_⟩
  have hne : ¬ text = "" := by
    intro heq
    rw [heq] at h
    exact absurd h (by decide)
  simp [resultSuffixStr, hne, h1]

/-- Witness for claim C6 at a 50-character result text. -/
theorem long_result_preview_truncated_witness :
    PREVIEW_LIMIT <
      (normTrimCollapse "aaaaaaaaaaaaaaaaaaaaaaaaaaaaaaaaaaaaaaaaaaaaaaaaaa").length
    ∧ (resultPreviewStr "aaaaaaaaaaaaaaaaaaaaaaaaaaaaaaaaaaaaaaaaaaaaaaaaaa" =
        (normTrimCollapse "aaaaaaaaaaaaaaaaaaaaaaaaaaaaaaaaaaaaaaaaaaaaaaaaaa").take
          PREVIEW_LIMIT ++ "..."
      ∧ resultSuffixStr (some "aaaaaaaaaaaaaaaaaaaaaaaaaaaaaaaaaaaaaaaaaaaaaaaaaa") =
        " | result: \"" ++
          escapeQuotes
            ((normTrimCollapse "aaaaaaaaaaaaaaaaaaaaaaaaaaaaaaaaaaaaaaaaaaaaaaaaaa").take
              PREVIEW_LIMIT ++ "...") ++ "\"") :=
  ⟨by decide, long_result_preview_truncated
    "aaaaaaaaaaaaaaaaaaaaaaaaaaaaaaaaaaaaaaaaaaaaaaaaaa" (by decide)⟩

/-- A part list without text parts leaves the preview state untouched. -/
theorem previewParts_nonText :
    ∀ (ps : List PromptPart), ps.all partIsNonText = true →
      previewParts ⟨"", false⟩ ps = ⟨"", false⟩ := by
  intro ps
  induction ps with
  | nil => intro _; rfl
  | cons p rest ih =>
    intro h
    simp only [List.all_cons, Bool.and_eq_true] at h
    cases p with
    | text t => simp [partIsNonText] at h
    | other => exact ih h.2

/-- A message list without text content leaves the preview state
untouched. -/
theorem previewMsgs_nonText :
    ∀ (msgs : List PromptMessage), msgs.all msgNonText = true →
      previewMsgs ⟨"", false⟩ msgs = ⟨"", false⟩ := by
  intro msgs
  induction msgs with
  | nil => intro _; rfl
  | cons m rest ih =>
    intro h
    simp only [List.all_cons, Bool.and_eq_true] at h
    cases m with
    | system c => simp [msgNonText] at h
    | parts ps =>
      show previewMsgs (previewParts ⟨"", false⟩ ps) rest = ⟨"", false⟩
      rw [previewParts_nonText ps h.1]
      exact ih h.2
    | nonArrayContent => exact ih h.2

/-- Claim C7. A prompt with no text content — entirely empty, or made only
of messages whose content is not an array or contains no text part —
yields no preview at all, and the prompt suffix of the start line is then
the empty string (the suffix is omitted entirely, not printed as an empty
quoted string). -/
theorem empty_prompt_no_preview (msgs : List PromptMessage)
    (h : msgs.all msgNonText = true) :
    getPromptPreview (some msgs) = none
    ∧ formatPromptSuffix (getPromptPreview (some msgs)) = "" := by
  have hm : previewMsgs ⟨"", false⟩ msgs = ⟨"", false⟩ := previewMsgs_nonText msgs h
  constructor
  · simp [getPromptPreview, hm]
  · simp [getPromptPreview, hm, formatPromptSuffix]

/-- Witness for claim C7: an empty message, a non-array message and a
message with only non-text parts. -/
theorem empty_prompt_no_preview_witness :
    ([PromptMessage.parts [PromptPart.other], PromptMessage.nonArrayContent,
      PromptMessage.parts []].all msgNonText = true)
    ∧ (getPromptPreview (some [PromptMessage.parts [PromptPart.other],
        PromptMessage.nonArrayContent, PromptMessage.parts []]) = none
      ∧ formatPromptSuffix (getPromptPreview
          (some [PromptMessage.parts [PromptPart.other],
            PromptMessage.nonArrayContent, PromptMessage.parts []])) = "") :=
  ⟨by decide, empty_prompt_no_preview _ (by decide)⟩

/-- Claim C8. The Prompt Previewer is deterministic: any two runs on the
same input message list produce the same preview (same text and same
truncated flag). In this embedding `getPromptPreview` is a pure function
of its argument — faithful to the source, which reads nothing but its
parameter and function-local variables — so two invocations, however far
apart, agree. -/
theorem prompt_preview_deterministic (params : Option (List PromptMessage))
    (r1 r2 : Option PromptPreview)
    (h1 : r1 = getPromptPreview params) (h2 : r2 = getPromptPreview params) :
    r1 = r2 := by
  rw [h1, h2]

/-- Witness for claim C8 at a concrete prompt. -/
theorem prompt_preview_deterministic_witness :
    getPromptPreview (some [PromptMessage.system "hello"]) =
      getPromptPreview (some [PromptMessage.system "hello"]) :=
  prompt_preview_deterministic (some [PromptMessage.system "hello"]) _ _ rfl rfl

/-- Claim C9. For every tool-result chunk, the model-logging transform
emits exactly one log line naming the originating tool by looking up the
chunk's tool-call identifier in the per-call name map (falling back to
`unknown` when no mapping exists), with the result payload used directly
when it is a string and serialized to text otherwise, truncated to the
100-character budget with an ellipsis marker — and forwards the chunk
itself unmodified. -/
theorem tool_result_line (modelName : String) (callId startTime now : Nat)
    (ac : Int) (st : ML.St) (id : String) (r : JsonVal) :
    (ML.transformChunk modelName callId startTime now ac st (.toolResult id r)).2.1 =
      [linePfx modelName callId ++ "📥 " ++
        (match mapGet st.toolCallIds id with
          | some n => n
          | none => "unknown") ++ " → " ++
        (let s := match r with
          | .jstr v => v
          | _ => jsonStringify r
         if TOOL_RESULT_PREVIEW_LIMIT < s.length then
           s.take TOOL_RESULT_PREVIEW_LIMIT ++ "..."
         else s)]
    ∧ (ML.transformChunk modelName callId startTime now ac st (.toolResult id r)).2.2 =
      [Chunk.toolResult id r] := by
  constructor
  · cases hm : mapGet st.toolCallIds id <;> cases r <;>
      simp [ML.transformChunk, formatToolResult, hm]
  · exact ML.mlStep_enqueued modelName callId startTime now ac st
      (.toolResult id r)

/-- Claim C10. In `getToolArguments`, the presence of the `args` key takes
precedence over `input` (the result never depends on `input` once `args`
is present); the selected value is used directly when it is a string and
stringified otherwise; an absent or falsy selection yields the empty
string. -/
theorem tool_arguments_args_precedence (a i : JsonVal) :
    getToolArguments (some a) (some i) = getToolArguments (some a) none
    ∧ getToolArguments (some a) (some i) =
        (if jsFalsy a then ""
         else match a with
           | .jstr s => s
           | _ => jsonStringify a)
    ∧ getToolArguments none (some i) =
        (if jsFalsy i then ""
         else match i with
           | .jstr s => s
           | _ => jsonStringify i)
    ∧ getToolArguments none none = "" :=
  ⟨rfl, rfl, rfl, rfl⟩

end Spec2Proof
